import Mathlib

/-!
Shallow embedding of `src/train.py` from the road/building-extraction
repository, together with theorems settling the frozen claims about its
natural-language specification.

The file embeds the training orchestration of `train.py`:
the per-batch bodies of `train` and `validation`, the `save_checkpoint`
function, and the epoch loop of `main` (resume handling, best-loss
bookkeeping, checkpointing).  External collaborators that live outside this
repository (the UNet forward pass, the BCE+Dice criterion, `dice_coeff`,
autograd, and the SGD update) are abstracted into an environment record
`Env`; the torch `StepLR` scheduler is modelled by its documented step-decay
semantics.  Scalars are rationals; observable side effects of each pass are
recorded as an explicit event trace; Python's `ZeroDivisionError` is
modelled by an `Except` error.
-/

namespace RoadExtraction

/-- A tensor of scalars, flattened to a list of rationals. -/
abbrev Tensor := List ℚ

/-- One batch produced by a data loader: `data['sat_img']`, `data['map_img']`,
and the leading-dimension size `inputs.size(0)`. -/
structure Batch where
  sat_img : Tensor
  map_img : Tensor
  bsize : ℕ
  deriving Repr, DecidableEq

/-- The `training` flag of a torch module: `model.train()` / `model.eval()`. -/
inductive Mode where
  | train
  | eval
  deriving Repr, DecidableEq

/-- A torch module as the training loop sees it: an opaque weight blob
(`state_dict`) plus the train/eval mode flag.  A freshly constructed module
is in training mode. -/
structure Model (W : Type) where
  weights : W
  mode : Mode
  deriving Repr, DecidableEq

/-- External collaborators of `train.py` that are not part of this
repository: the UNet forward pass, the `metrics.BCEDiceLoss` criterion,
`metrics.dice_coeff`, autograd's gradient computation, and the SGD update
applied by `optimizer.step()` (which reads the learning rate the scheduler
wrote into the parameter group).  `W` is the model-weight blob, `G` the
gradient blob, `O` the optimizer state blob. -/
structure Env (W G O : Type) where
  forward : W → Tensor → Tensor
  criterion : Tensor → Tensor → ℚ
  dice_coeff : Tensor → Tensor → ℚ
  backward : W → Tensor → Tensor → G
  sgd_step : ℚ → W → O → G → W × O

/-- Modelled from the spec: `metrics.MetricTracker` lives in
`utils/metrics.py`, which is not under `src/`.  Per the spec it keeps
`{sum, count}`, `update(value, weight)` adds `value*weight` to the sum and
`weight` to the count, and `average = sum/count`, guarded to `0` when the
count is zero. -/
structure MetricTracker where
  sum : ℚ
  count : ℕ
  deriving Repr, DecidableEq

/-- A freshly constructed (or reset) tracker. -/
def MetricTracker.init : MetricTracker := ⟨0, 0⟩

/-- `update(value, weight)` of the tracker. -/
def MetricTracker.update (t : MetricTracker) (v : ℚ) (n : ℕ) : MetricTracker :=
  ⟨t.sum + v * n, t.count + n⟩

/-- The running weighted average of the tracker. -/
def MetricTracker.avg (t : MetricTracker) : ℚ :=
  if t.count = 0 then 0 else t.sum / t.count

/-- The torch `optim.lr_scheduler.StepLR` collaborator, modelled by its
step-decay semantics: the learning rate is
`base_lr * gamma ^ (last_epoch / step_size)`, and each `scheduler.step()`
call increments `last_epoch`.  The constructor performs one implicit
initial step, leaving `last_epoch = 0`. -/
structure StepLR where
  step_size : ℕ
  gamma : ℚ
  base_lr : ℚ
  last_epoch : ℕ
  deriving Repr, DecidableEq

/-- `optim.lr_scheduler.StepLR(optimizer, step_size=15, gamma=0.1)` as
constructed in `main` (train.py line 48). -/
def StepLR.mk0 (base : ℚ) : StepLR :=
  ⟨15, 1/10, base, 0⟩

/-- The learning rate currently written into the optimizer's param group. -/
def StepLR.lr (s : StepLR) : ℚ :=
  s.base_lr * s.gamma ^ (s.last_epoch / s.step_size)

/-- One `scheduler.step()` call. -/
def StepLR.step (s : StepLR) : StepLR :=
  { s with last_epoch := s.last_epoch + 1 }

/-- `(prob_map > c).float()`: elementwise threshold to a 1.0/0.0 tensor. -/
def thresholdGT (t : Tensor) (c : ℚ) : Tensor :=
  t.map (fun p => if c < p then 1 else 0)

/-- A tensor all of whose entries are 0 or 1. -/
def isBinary (t : Tensor) : Prop :=
  ∀ x ∈ t, x = 0 ∨ x = 1

/-- Python `ZeroDivisionError`, raised either by
`len(loader)//print_freq` before the batch loop or by `idx % log_iter`
while processing batch `idx`. -/
inductive PyError where
  | zeroDivPreLoop
  | zeroDivAtBatch (idx : ℕ)
  deriving Repr, DecidableEq

/-- Python integer floor division, `none` on a zero divisor. -/
def floordiv (a b : ℕ) : Option ℕ :=
  if b = 0 then none else some (a / b)

/-- Observable side effects of the passes, in program order.  Each
constructor corresponds to one statement of `train.py`:
`optimizer.zero_grad()`, `model(inputs)`, `criterion(outputs, labels)`,
`loss.backward()`, `optimizer.step()`, `metrics.dice_coeff(inputs, labels)`,
`train_acc.update(...)` / `valid_acc.update(...)`,
`train_loss.update(...)` / `valid_loss.update(...)`, `scheduler.step()`,
`model.eval()`, and the tensorboard logging block guarded by
`idx % log_iter == 0`. -/
inductive Event where
  | zeroGrad
  | forwardCall (input output : Tensor)
  | criterionCall (pred target : Tensor) (loss : ℚ)
  | backwardCall (loss : ℚ)
  | optStep
  | diceCall (a b : Tensor) (value : ℚ)
  | accUpdate (value : ℚ) (weight : ℕ)
  | lossUpdate (value : ℚ) (weight : ℕ)
  | schedStep (last_epoch : ℕ)
  | modelEval
  | logEmit (step : ℚ)
  deriving Repr, DecidableEq

/-- Number of `optimizer.step()` calls recorded in a trace. -/
def countOptSteps (evs : List Event) : ℕ :=
  evs.countP (fun e => e matches Event.optStep)

/-- Number of `optimizer.zero_grad()` calls recorded in a trace. -/
def countZeroGrads (evs : List Event) : ℕ :=
  evs.countP (fun e => e matches Event.zeroGrad)

/-- Number of `loss.backward()` calls recorded in a trace. -/
def countBackwards (evs : List Event) : ℕ :=
  evs.countP (fun e => e matches Event.backwardCall _)

/-- Number of `scheduler.step()` calls recorded in a trace. -/
def countSchedSteps (evs : List Event) : ℕ :=
  evs.countP (fun e => e matches Event.schedStep _)

/-- Number of accuracy-tracker updates recorded in a trace. -/
def countAccUpdates (evs : List Event) : ℕ :=
  evs.countP (fun e => e matches Event.accUpdate _ _)

/-- Number of loss-tracker updates recorded in a trace. -/
def countLossUpdates (evs : List Event) : ℕ :=
  evs.countP (fun e => e matches Event.lossUpdate _ _)

/-- Mutable state threaded through the training pass: the model, the
optimizer state, and the two `MetricTracker`s. -/
structure TrainSt (W O : Type) where
  model : Model W
  opt : O
  acc_t : MetricTracker
  loss_t : MetricTracker
  deriving Repr, DecidableEq

/-- The body of the `for idx, data in enumerate(...)` loop of `train`
(train.py lines 136-192): zero the gradients, run the forward pass,
threshold the probability map at 0.3, compute the criterion on the
thresholded output, backpropagate, apply one optimizer step, update both
trackers, and run the logging block when `idx % log_iter == 0` — which
raises `ZeroDivisionError` when `log_iter` is zero. -/
def trainBatch (env : Env W G O) (log_iter print_freq epoch_num : ℕ) (lr : ℚ)
    (st : TrainSt W O) (idx : ℕ) (data : Batch) :
    Except PyError (TrainSt W O × List Event) :=
  let inputs := data.sat_img
  let labels := data.map_img
  let prob_map := env.forward st.model.weights inputs
  let outputs := thresholdGT prob_map (3/10)
  let loss := env.criterion outputs labels
  let g := env.backward st.model.weights outputs labels
  let ws := env.sgd_step lr st.model.weights st.opt g
  let d := env.dice_coeff inputs labels
  let acc2 := st.acc_t.update d data.bsize
  let loss2 := st.loss_t.update loss data.bsize
  let evs := [Event.zeroGrad, Event.forwardCall inputs prob_map,
    Event.criterionCall outputs labels loss, Event.backwardCall loss, Event.optStep,
    Event.diceCall inputs labels d, Event.accUpdate d data.bsize,
    Event.lossUpdate loss data.bsize]
  if log_iter = 0 then
    Except.error (PyError.zeroDivAtBatch idx)
  else
    let evs := if idx % log_iter = 0 then
        evs ++ [Event.logEmit ((epoch_num * print_freq : ℕ) + (idx : ℚ) / (log_iter : ℚ))]
      else evs
    Except.ok (⟨⟨ws.1, st.model.mode⟩, ws.2, acc2, loss2⟩, evs)

/-- Runs a per-batch body over an enumerated list of batches, concatenating
the event traces and stopping at the first raised error. -/
def runBatches {St : Type} (f : St → ℕ → Batch → Except PyError (St × List Event)) :
    St → ℕ → List Batch → Except PyError (St × List Event)
  | st, _, [] => Except.ok (st, [])
  | st, idx, b :: bs =>
    match f st idx b with
    | Except.error e => Except.error e
    | Except.ok (st2, evs) =>
      match runBatches f st2 (idx + 1) bs with
      | Except.error e => Except.error e
      | Except.ok (st3, evs2) => Except.ok (st3, evs ++ evs2)

/-- What the `train` function returns and mutates: the model, optimizer and
scheduler states, the dict `{'train_loss': ..., 'train_acc': ...}`, and the
recorded trace. -/
structure TrainResult (W O : Type) where
  model : Model W
  opt : O
  sched : StepLR
  train_loss : ℚ
  train_acc : ℚ
  events : List Event
  deriving Repr, DecidableEq

/-- The training pass `train(train_loader, model, criterion, optimizer,
scheduler, logger, epoch_num)` (train.py lines 114-197): fresh trackers,
`log_iter = len(train_loader)//logger.print_freq`, one `scheduler.step()`
before the batch loop, then the batch loop. -/
def train (env : Env W G O) (train_loader : List Batch) (model : Model W)
    (opt : O) (scheduler : StepLR) (print_freq epoch_num : ℕ) :
    Except PyError (TrainResult W O) :=
  match floordiv train_loader.length print_freq with
  | none => Except.error PyError.zeroDivPreLoop
  | some log_iter =>
    match runBatches (trainBatch env log_iter print_freq epoch_num scheduler.step.lr)
        (⟨model, opt, MetricTracker.init, MetricTracker.init⟩ : TrainSt W O)
        0 train_loader with
    | Except.error e => Except.error e
    | Except.ok (st, evs) =>
      Except.ok ⟨st.model, st.opt, scheduler.step, st.loss_t.avg, st.acc_t.avg,
        Event.schedStep scheduler.step.last_epoch :: evs⟩

/-- Mutable state threaded through the validation pass: the model and the
two `MetricTracker`s.  The optimizer is not even passed to `validation`. -/
structure ValidSt (W : Type) where
  model : Model W
  acc_t : MetricTracker
  loss_t : MetricTracker
  deriving Repr, DecidableEq

/-- The body of the batch loop of `validation` (train.py lines 223-266):
forward pass, threshold at 0.3, criterion, tracker updates, logging block.
No gradient zeroing, no backward call, no optimizer step. -/
def validationBatch (env : Env W G O) (log_iter print_freq epoch_num : ℕ)
    (st : ValidSt W) (idx : ℕ) (data : Batch) :
    Except PyError (ValidSt W × List Event) :=
  let inputs := data.sat_img
  let labels := data.map_img
  let prob_map := env.forward st.model.weights inputs
  let outputs := thresholdGT prob_map (3/10)
  let loss := env.criterion outputs labels
  let d := env.dice_coeff inputs labels
  let acc2 := st.acc_t.update d data.bsize
  let loss2 := st.loss_t.update loss data.bsize
  let evs := [Event.forwardCall inputs prob_map,
    Event.criterionCall outputs labels loss,
    Event.diceCall inputs labels d, Event.accUpdate d data.bsize,
    Event.lossUpdate loss data.bsize]
  if log_iter = 0 then
    Except.error (PyError.zeroDivAtBatch idx)
  else
    let evs := if idx % log_iter = 0 then
        evs ++ [Event.logEmit ((epoch_num * print_freq : ℕ) + (idx : ℚ) / (log_iter : ℚ))]
      else evs
    Except.ok (⟨st.model, acc2, loss2⟩, evs)

/-- What the `validation` function returns: the model (mutated only by
`model.eval()`), the dict `{'valid_loss': ..., 'valid_acc': ...}`, and the
recorded trace. -/
structure ValidResult (W : Type) where
  model : Model W
  valid_loss : ℚ
  valid_acc : ℚ
  events : List Event
  deriving Repr, DecidableEq

/-- The validation pass `validation(valid_loader, model, criterion, logger,
epoch_num)` (train.py lines 200-271): fresh trackers,
`log_iter = len(valid_loader)//logger.print_freq`, `model.eval()`, then the
batch loop. -/
def validation (env : Env W G O) (valid_loader : List Batch) (model : Model W)
    (print_freq epoch_num : ℕ) : Except PyError (ValidResult W) :=
  match floordiv valid_loader.length print_freq with
  | none => Except.error PyError.zeroDivPreLoop
  | some log_iter =>
    match runBatches (validationBatch env log_iter print_freq epoch_num)
        (⟨{ model with mode := Mode.eval }, MetricTracker.init, MetricTracker.init⟩ :
          ValidSt W)
        0 valid_loader with
    | Except.error e => Except.error e
    | Except.ok (st, evs) =>
      Except.ok ⟨st.model, st.loss_t.avg, st.acc_t.avg, Event.modelEval :: evs⟩

/-- The checkpoint record saved each epoch (train.py lines 99-105): the
exact dict `{'epoch': ..., 'arch': 'UNet', 'state_dict': ...,
'best_loss': ..., 'optimizer': ...}`.  It has no field for the
learning-rate scheduler. -/
structure Ckpt (W O : Type) where
  epoch : ℕ
  arch : String
  state_dict : W
  best_loss : ℚ
  optimizer : O
  deriving Repr, DecidableEq

/-- The two on-disk checkpoint artifacts:
`../checkpoints/checkpoint.pth.tar` and `../checkpoints/model_best.pth.tar`. -/
structure FS (W O : Type) where
  checkpoint : Option (Ckpt W O)
  model_best : Option (Ckpt W O)
  deriving Repr, DecidableEq

/-- `save_checkpoint(state, is_best)` (train.py lines 275-284):
`torch.save(state, filename)` overwrites the fixed latest location, and
when `is_best` the latest file is copied to the fixed best location. -/
def save_checkpoint (state : Ckpt W O) (is_best : Bool) (fs : FS W O) : FS W O :=
  let fs := { fs with checkpoint := some state }
  if is_best then { fs with model_best := fs.checkpoint } else fs

/-- The `--resume` situation seen by `main`: empty path (the default, no
resume), a path with no file behind it, or a path whose file deserializes
to a checkpoint record. -/
inductive ResumeArg (W O : Type) where
  | noArg
  | missingFile
  | file (ck : Ckpt W O)

/-- The run state established by `main` before the epoch loop. -/
structure StartState (W O : Type) where
  start_epoch : ℕ
  best_loss : ℚ
  model : Model W
  optimizer : O
  lr_scheduler : StepLR
  missingCkptLogged : Bool
  deriving Repr, DecidableEq

/-- The setup part of `main` (train.py lines 36-66): fresh model in
training mode, SGD optimizer, `StepLR(step_size=15, gamma=0.1)`,
`best_loss = 999`, `start_epoch = 0`, then the optional resume: an
existing checkpoint restores `start_epoch`, `best_loss`, the model
weights and the optimizer state from the record (the scheduler is left as
constructed); a missing file only prints a message. -/
def mainSetup (learning_rate : ℚ) (w0 : W) (opt0 : O) (resume : ResumeArg W O) :
    StartState W O :=
  match resume with
  | ResumeArg.noArg =>
    ⟨0, 999, ⟨w0, Mode.train⟩, opt0, StepLR.mk0 learning_rate, false⟩
  | ResumeArg.missingFile =>
    ⟨0, 999, ⟨w0, Mode.train⟩, opt0, StepLR.mk0 learning_rate, true⟩
  | ResumeArg.file ck =>
    ⟨ck.epoch, ck.best_loss, ⟨ck.state_dict, Mode.train⟩, ck.optimizer,
      StepLR.mk0 learning_rate, false⟩

/-- The run state threaded through the epoch loop of `main`. -/
structure LoopState (W O : Type) where
  model : Model W
  opt : O
  sched : StepLR
  best_loss : ℚ
  fs : FS W O

/-- Everything observable about one iteration of the epoch loop:
the epoch index, the model mode and scheduler state the training pass ran
under, the two traces, the validation loss, the `is_best` decision, the
updated best loss, the saved record, and the file system afterwards. -/
structure EpochRecord (W O : Type) where
  epoch : ℕ
  modeAtTrainStart : Mode
  lrDuringTrain : ℚ
  schedLastEpochDuringTrain : ℕ
  trainEvents : List Event
  validEvents : List Event
  valid_loss : ℚ
  is_best : Bool
  best_loss_after : ℚ
  saved : Ckpt W O
  fsAfter : FS W O
  deriving Repr, DecidableEq

/-- One iteration of `for epoch in range(start_epoch, num_epochs)` in
`main` (train.py lines 89-108): one training pass, one validation pass,
`is_best = valid_metrics['valid_loss'] < best_loss`,
`best_loss = min(valid_metrics['valid_loss'], best_loss)`, then
`save_checkpoint` of the dict built at lines 99-105. -/
def epochBody (env : Env W G O) (print_freq : ℕ)
    (train_loader val_loader : List Batch) (epoch : ℕ) (st : LoopState W O) :
    Except PyError (EpochRecord W O × LoopState W O) :=
  match train env train_loader st.model st.opt st.sched print_freq epoch with
  | Except.error e => Except.error e
  | Except.ok tr =>
    match validation env val_loader tr.model print_freq epoch with
    | Except.error e => Except.error e
    | Except.ok vr =>
      let is_best : Bool := decide (vr.valid_loss < st.best_loss)
      let best2 := min vr.valid_loss st.best_loss
      let ck : Ckpt W O := ⟨epoch, "UNet", vr.model.weights, best2, tr.opt⟩
      let fs2 := save_checkpoint ck is_best st.fs
      Except.ok (⟨epoch, st.model.mode, tr.sched.lr, tr.sched.last_epoch,
          tr.events, vr.events, vr.valid_loss, is_best, best2, ck, fs2⟩,
        ⟨vr.model, tr.opt, tr.sched, best2, fs2⟩)

/-- The epoch loop of `main`, run over an explicit list of epoch indices,
collecting one `EpochRecord` per epoch. -/
def epochLoop (env : Env W G O) (print_freq : ℕ)
    (train_loader val_loader : List Batch) :
    List ℕ → LoopState W O →
    Except PyError (List (EpochRecord W O) × LoopState W O)
  | [], st => Except.ok ([], st)
  | e :: es, st =>
    match epochBody env print_freq train_loader val_loader e st with
    | Except.error err => Except.error err
    | Except.ok (r, st2) =>
      match epochLoop env print_freq train_loader val_loader es st2 with
      | Except.error err => Except.error err
      | Except.ok (rs, st3) => Except.ok (r :: rs, st3)

/-- The observable outcome of a whole `main` run. -/
structure RunResult (W O : Type) where
  records : List (EpochRecord W O)
  final_model : Model W
  final_opt : O
  final_sched : StepLR
  final_best_loss : ℚ
  fs : FS W O
  missingCkptLogged : Bool
  deriving Repr, DecidableEq

/-- `main(...)` (train.py lines 22-111): setup (including optional
resume), then `for epoch in range(start_epoch, num_epochs)`.  The external
collaborators, the initial weight and optimizer blobs, the loader
contents, and the initial state of the checkpoint directory are
parameters. -/
def main (env : Env W G O) (num_epochs : ℕ) (learning_rate : ℚ)
    (print_freq : ℕ) (resume : ResumeArg W O) (w0 : W) (opt0 : O)
    (train_loader val_loader : List Batch) (fs0 : FS W O) :
    Except PyError (RunResult W O) :=
  match epochLoop env print_freq train_loader val_loader
      (List.range' (mainSetup learning_rate w0 opt0 resume).start_epoch
        (num_epochs - (mainSetup learning_rate w0 opt0 resume).start_epoch))
      ⟨(mainSetup learning_rate w0 opt0 resume).model,
        (mainSetup learning_rate w0 opt0 resume).optimizer,
        (mainSetup learning_rate w0 opt0 resume).lr_scheduler,
        (mainSetup learning_rate w0 opt0 resume).best_loss, fs0⟩ with
  | Except.error e => Except.error e
  | Except.ok (recs, st) =>
    Except.ok ⟨recs, st.model, st.opt, st.sched, st.best_loss, st.fs,
      (mainSetup learning_rate w0 opt0 resume).missingCkptLogged⟩

/-! ## Concrete instantiations used by witnesses and counterexamples

`W := ℕ` counts optimizer steps, `G := Unit`, `O := ℕ` counts optimizer
steps as well.  The forward pass encodes the weight value as the length of
the output tensor, so the (binary) thresholded output still determines the
weight and the criterion can assign a chosen loss to each epoch. -/

/-- Loss assigned by the concrete criterion to an output tensor of the
given length: epochs of a fresh run see validation losses
`[0.5, 0.3, 0.4, 0.2, 999, 999, ...]`. -/
def lossOfLen : ℕ → ℚ
  | 1 => 1/2
  | 2 => 3/10
  | 3 => 2/5
  | 4 => 1/5
  | _ => 999

/-- A concrete external environment. -/
def envC : Env ℕ Unit ℕ where
  forward := fun w _ => List.replicate w 1
  criterion := fun outputs _ => lossOfLen outputs.length
  dice_coeff := fun a b => ((a.length + b.length : ℕ) : ℚ)
  backward := fun _ _ _ => ()
  sgd_step := fun _ w o _ => (w + 1, o + 1)

/-- A concrete external environment whose criterion is constantly 999. -/
def env999 : Env ℕ Unit ℕ where
  forward := fun w _ => List.replicate w 1
  criterion := fun _ _ => 999
  dice_coeff := fun _ _ => 0
  backward := fun _ _ _ => ()
  sgd_step := fun _ w o _ => (w + 1, o + 1)

/-- A concrete one-sample batch. -/
def bC : Batch := ⟨[1], [1], 1⟩

/-- An empty checkpoint directory. -/
def fsEmpty : FS ℕ ℕ := ⟨none, none⟩

/-- Wholesale restoration of the lr-schedule across a save/resume pair, in
the spec's words (claim C8): the re-run epoch executes under the same
scheduler state it had when the checkpoint was written.  Stated for two
runs as the equality of their recorded scheduler states at a common epoch. -/
def schedStateAt (rs : List (EpochRecord W O)) (e : ℕ) : Option ℕ :=
  (rs.find? (fun r => r.epoch == e)).map (·.schedLastEpochDuringTrain)

/-- The spec's words for claim C1: the best artifact is written in an epoch
exactly when that epoch's validation loss is strictly lower than every
prior epoch's validation loss (vacuously so at the first epoch). -/
def bestExactlyOnStrictImprovement (rs : List (EpochRecord W O)) : Prop :=
  ∀ i, (hi : i < rs.length) →
    ((rs.get ⟨i, hi⟩).is_best = true ↔
      ∀ j, (hj : j < i) →
        (rs.get ⟨i, hi⟩).valid_loss < (rs.get ⟨j, Nat.lt_trans hj hi⟩).valid_loss)

/-- Extracts the payload of an `ok` result, with an explicit fallback. -/
def okOr (x : Except PyError α) (d : α) : α :=
  match x with
  | Except.ok a => a
  | Except.error _ => d

/-- The fresh four-epoch run whose validation losses are
`[0.5, 0.3, 0.4, 0.2]`, the sequence named by the spec. -/
def runSeq : RunResult ℕ ℕ :=
  okOr (main envC 4 (1/100) 1 ResumeArg.noArg 0 0 [bC] [bC] fsEmpty)
    ⟨[], ⟨0, Mode.train⟩, 0, StepLR.mk0 0, 0, ⟨none, none⟩, false⟩

/-- A fresh one-epoch run whose only validation loss is 999. -/
def run999a : RunResult ℕ ℕ :=
  okOr (main env999 1 (1/100) 1 ResumeArg.noArg 0 0 [bC] [bC] fsEmpty)
    ⟨[], ⟨0, Mode.train⟩, 0, StepLR.mk0 0, 0, ⟨none, none⟩, false⟩

/-- A fresh two-epoch run in which every validation loss is 999. -/
def run999b : RunResult ℕ ℕ :=
  okOr (main env999 2 (1/100) 1 ResumeArg.noArg 0 0 [bC] [bC] fsEmpty)
    ⟨[], ⟨0, Mode.train⟩, 0, StepLR.mk0 0, 0, ⟨none, none⟩, false⟩

/-- A fresh two-epoch run with the concrete environment. -/
def run2 : RunResult ℕ ℕ :=
  okOr (main envC 2 (1/100) 1 ResumeArg.noArg 0 0 [bC] [bC] fsEmpty)
    ⟨[], ⟨0, Mode.train⟩, 0, StepLR.mk0 0, 0, ⟨none, none⟩, false⟩

/-- The checkpoint `run2` leaves at the fixed latest location. -/
def ckR : Ckpt ℕ ℕ := ⟨1, "UNet", 2, 3/10, 2⟩

/-- The run that resumes from `ckR` with the same configuration. -/
def runResumed : RunResult ℕ ℕ :=
  okOr (main envC 2 (1/100) 1 (ResumeArg.file ckR) 0 0 [bC] [bC] fsEmpty)
    ⟨[], ⟨0, Mode.train⟩, 0, StepLR.mk0 0, 0, ⟨none, none⟩, false⟩

/-- A fresh sixteen-epoch run with the concrete environment. -/
def run16 : RunResult ℕ ℕ :=
  okOr (main envC 16 (1/100) 1 ResumeArg.noArg 0 0 [bC] [bC] fsEmpty)
    ⟨[], ⟨0, Mode.train⟩, 0, StepLR.mk0 0, 0, ⟨none, none⟩, false⟩

/-- A concrete starting state for one training batch. -/
def stC : TrainSt ℕ ℕ :=
  ⟨⟨0, Mode.train⟩, 0, MetricTracker.init, MetricTracker.init⟩

/-- The result of one concrete training batch. -/
def tbC : TrainSt ℕ ℕ × List Event :=
  okOr (trainBatch envC 1 1 0 (1/100) stC 0 bC) (stC, [])

/-- A concrete starting state for one validation batch. -/
def vstC : ValidSt ℕ :=
  ⟨⟨1, Mode.eval⟩, MetricTracker.init, MetricTracker.init⟩

/-- The result of one concrete validation batch. -/
def vbC : ValidSt ℕ × List Event :=
  okOr (validationBatch envC 1 1 0 vstC 0 bC) (vstC, [])

/-! ## Helper lemmas -/

theorem thresholdGT_isBinary (t : Tensor) (c : ℚ) : isBinary (thresholdGT t c) := by
  intro x hx
  simp only [thresholdGT, List.mem_map] at hx
  obtain ⟨p, hp, hpe⟩ := hx
  by_cases h : c < p
  · right
    rw [← hpe]
    simp [h]
  · left
    rw [← hpe]
    simp [h]

theorem trainBatch_ok {env : Env W G O} {li pf en : ℕ} {lr : ℚ} {st : TrainSt W O}
    {idx : ℕ} {b : Batch} {st2 : TrainSt W O} {evs : List Event}
    (h : trainBatch env li pf en lr st idx b = Except.ok (st2, evs)) :
    st2.model.mode = st.model.mode ∧
    st2.model.weights = (env.sgd_step lr st.model.weights st.opt
      (env.backward st.model.weights
        (thresholdGT (env.forward st.model.weights b.sat_img) (3/10)) b.map_img)).1 ∧
    st2.acc_t = st.acc_t.update (env.dice_coeff b.sat_img b.map_img) b.bsize ∧
    st2.loss_t = st.loss_t.update
      (env.criterion (thresholdGT (env.forward st.model.weights b.sat_img) (3/10))
        b.map_img) b.bsize ∧
    evs.head? = some Event.zeroGrad ∧
    Event.criterionCall (thresholdGT (env.forward st.model.weights b.sat_img) (3/10))
      b.map_img
      (env.criterion (thresholdGT (env.forward st.model.weights b.sat_img) (3/10))
        b.map_img) ∈ evs ∧
    Event.backwardCall
      (env.criterion (thresholdGT (env.forward st.model.weights b.sat_img) (3/10))
        b.map_img) ∈ evs ∧
    Event.diceCall b.sat_img b.map_img (env.dice_coeff b.sat_img b.map_img) ∈ evs ∧
    Event.accUpdate (env.dice_coeff b.sat_img b.map_img) b.bsize ∈ evs ∧
    Event.lossUpdate
      (env.criterion (thresholdGT (env.forward st.model.weights b.sat_img) (3/10))
        b.map_img) b.bsize ∈ evs ∧
    countOptSteps evs = 1 ∧ countZeroGrads evs = 1 ∧ countBackwards evs = 1 ∧
    countAccUpdates evs = 1 ∧ countLossUpdates evs = 1 ∧ countSchedSteps evs = 0 := by
  by_cases hli : li = 0
  · simp [trainBatch, hli] at h
  · simp only [trainBatch, if_neg hli] at h
    split at h <;>
    · simp only [Except.ok.injEq, Prod.mk.injEq] at h
      obtain ⟨h1, h2⟩ := h
      subst h1
      subst h2
      refine ⟨rfl, rfl, rfl, rfl, rfl, by simp, by simp, by simp, by simp, by simp,
        rfl, rfl, rfl, rfl, rfl, rfl⟩

theorem validationBatch_ok {env : Env W G O} {li pf en : ℕ} {st : ValidSt W}
    {idx : ℕ} {b : Batch} {st2 : ValidSt W} {evs : List Event}
    (h : validationBatch env li pf en st idx b = Except.ok (st2, evs)) :
    st2.model = st.model ∧
    st2.acc_t = st.acc_t.update (env.dice_coeff b.sat_img b.map_img) b.bsize ∧
    st2.loss_t = st.loss_t.update
      (env.criterion (thresholdGT (env.forward st.model.weights b.sat_img) (3/10))
        b.map_img) b.bsize ∧
    Event.diceCall b.sat_img b.map_img (env.dice_coeff b.sat_img b.map_img) ∈ evs ∧
    Event.accUpdate (env.dice_coeff b.sat_img b.map_img) b.bsize ∈ evs ∧
    Event.lossUpdate
      (env.criterion (thresholdGT (env.forward st.model.weights b.sat_img) (3/10))
        b.map_img) b.bsize ∈ evs ∧
    countOptSteps evs = 0 ∧ countZeroGrads evs = 0 ∧ countBackwards evs = 0 ∧
    countAccUpdates evs = 1 ∧ countLossUpdates evs = 1 ∧ countSchedSteps evs = 0 := by
  by_cases hli : li = 0
  · simp [validationBatch, hli] at h
  · simp only [validationBatch, if_neg hli] at h
    split at h <;>
    · simp only [Except.ok.injEq, Prod.mk.injEq] at h
      obtain ⟨h1, h2⟩ := h
      subst h1
      subst h2
      refine ⟨rfl, rfl, rfl, by simp, by simp, by simp,
        rfl, rfl, rfl, rfl, rfl, rfl⟩

theorem runBatches_countP_zero {St : Type}
    {f : St → ℕ → Batch → Except PyError (St × List Event)} {p : Event → Bool}
    (hf : ∀ st idx b st2 evs, f st idx b = Except.ok (st2, evs) → evs.countP p = 0) :
    ∀ (bs : List Batch) (st : St) (idx : ℕ) (st2 : St) (evs : List Event),
    runBatches f st idx bs = Except.ok (st2, evs) → evs.countP p = 0 := by
  intro bs
  induction bs with
  | nil =>
    intro st idx st2 evs h
    simp only [runBatches, Except.ok.injEq, Prod.mk.injEq] at h
    rw [← h.2]
    rfl
  | cons b bs ih =>
    intro st idx st2 evs h
    simp only [runBatches] at h
    split at h
    · cases h
    · rename_i stq evs1 hb
      split at h
      · cases h
      · rename_i stw evs2 hr
        simp only [Except.ok.injEq, Prod.mk.injEq] at h
        rw [← h.2, List.countP_append, hf _ _ _ _ _ hb, ih _ _ _ _ hr]

theorem train_ok {env : Env W G O} {tl : List Batch} {m : Model W} {o : O}
    {s : StepLR} {pf e : ℕ} {tr : TrainResult W O}
    (h : train env tl m o s pf e = Except.ok tr) :
    tr.sched = s.step ∧
    tr.events.head? = some (Event.schedStep (s.step).last_epoch) ∧
    countSchedSteps tr.events = 1 := by
  unfold train at h
  split at h
  · cases h
  · rename_i li hd
    split at h
    · cases h
    · rename_i stq evs hr
      simp only [Except.ok.injEq] at h
      subst h
      have h0 : evs.countP (fun ev => ev matches Event.schedStep _) = 0 :=
        runBatches_countP_zero
          (fun st idx b st2 evs2 hb => (trainBatch_ok hb).2.2.2.2.2.2.2.2.2.2.2.2.2.2.2)
          tl _ 0 _ _ hr
      refine ⟨rfl, rfl, ?_⟩
      simp [countSchedSteps, List.countP_cons, h0]

theorem validation_ok {env : Env W G O} {vl : List Batch} {m : Model W}
    {pf e : ℕ} {vr : ValidResult W}
    (h : validation env vl m pf e = Except.ok vr) :
    vr.model.weights = m.weights ∧ vr.model.mode = Mode.eval ∧
    countOptSteps vr.events = 0 ∧ countZeroGrads vr.events = 0 ∧
    countBackwards vr.events = 0 := by
  have hmodel : ∀ (li2 : ℕ) (bs : List Batch) (st : ValidSt W) (idx : ℕ)
      (st2 : ValidSt W) (evs : List Event),
      runBatches (validationBatch env li2 pf e) st idx bs = Except.ok (st2, evs) →
      st2.model = st.model := by
    intro li2 bs
    induction bs with
    | nil =>
      intro st idx st2 evs hq
      simp only [runBatches, Except.ok.injEq, Prod.mk.injEq] at hq
      rw [← hq.1]
    | cons b bs ih =>
      intro st idx st2 evs hq
      simp only [runBatches] at hq
      split at hq
      · cases hq
      · rename_i stq evs1 hb
        split at hq
        · cases hq
        · rename_i stw evs2 hr
          simp only [Except.ok.injEq, Prod.mk.injEq] at hq
          rw [← hq.1, ih _ _ _ _ hr, (validationBatch_ok hb).1]
  unfold validation at h
  split at h
  · cases h
  · rename_i li hd
    split at h
    · cases h
    · rename_i stq evs hr
      simp only [Except.ok.injEq] at h
      subst h
      have hm := hmodel li vl _ 0 _ _ hr
      have c1 : evs.countP (fun ev => ev matches Event.optStep) = 0 :=
        runBatches_countP_zero
          (fun st idx b st2 evs2 hb => (validationBatch_ok hb).2.2.2.2.2.2.1)
          vl _ 0 _ _ hr
      have c2 : evs.countP (fun ev => ev matches Event.zeroGrad) = 0 :=
        runBatches_countP_zero
          (fun st idx b st2 evs2 hb => (validationBatch_ok hb).2.2.2.2.2.2.2.1)
          vl _ 0 _ _ hr
      have c3 : evs.countP (fun ev => ev matches Event.backwardCall _) = 0 :=
        runBatches_countP_zero
          (fun st idx b st2 evs2 hb => (validationBatch_ok hb).2.2.2.2.2.2.2.2.1)
          vl _ 0 _ _ hr
      refine ⟨by rw [hm], by rw [hm], ?_, ?_, ?_⟩
      · simp [countOptSteps, List.countP_cons, c1]
      · simp [countZeroGrads, List.countP_cons, c2]
      · simp [countBackwards, List.countP_cons, c3]

theorem save_checkpoint_fs (state : Ckpt W O) (is_best : Bool) (fs : FS W O) :
    (save_checkpoint state is_best fs).checkpoint = some state ∧
    (save_checkpoint state is_best fs).model_best =
      (if is_best then some state else fs.model_best) := by
  unfold save_checkpoint
  cases is_best <;> simp

theorem epochBody_ok {env : Env W G O} {pf : ℕ} {tl vl : List Batch} {e : ℕ}
    {st : LoopState W O} {r : EpochRecord W O} {st2 : LoopState W O}
    (h : epochBody env pf tl vl e st = Except.ok (r, st2)) :
    r.epoch = e ∧
    r.modeAtTrainStart = st.model.mode ∧
    r.is_best = decide (r.valid_loss < st.best_loss) ∧
    r.best_loss_after = min r.valid_loss st.best_loss ∧
    st2.best_loss = min r.valid_loss st.best_loss ∧
    st2.fs = save_checkpoint r.saved r.is_best st.fs ∧
    r.fsAfter = st2.fs ∧
    r.saved.epoch = e ∧
    r.saved.arch = "UNet" ∧
    r.saved.best_loss = min r.valid_loss st.best_loss ∧
    st2.sched = st.sched.step ∧
    r.schedLastEpochDuringTrain = st.sched.step.last_epoch ∧
    r.lrDuringTrain = st.sched.step.lr ∧
    countSchedSteps r.trainEvents = 1 ∧
    r.trainEvents.head? = some (Event.schedStep r.schedLastEpochDuringTrain) := by
  unfold epochBody at h
  split at h
  · cases h
  · rename_i tr htr
    split at h
    · cases h
    · rename_i vr hvr
      have ht := train_ok htr
      simp only [Except.ok.injEq, Prod.mk.injEq] at h
      obtain ⟨h1, h2⟩ := h
      subst h1
      subst h2
      refine ⟨rfl, rfl, rfl, rfl, rfl, rfl, rfl, rfl, rfl, rfl, ht.1, ?_, ?_, ht.2.2, ?_⟩
      · rw [ht.1]
      · rw [ht.1]
      · rw [ht.1]
        exact ht.2.1

theorem epochLoop_epochs {env : Env W G O} {pf : ℕ} {tl vl : List Batch} :
    ∀ (es : List ℕ) (st : LoopState W O) (rs : List (EpochRecord W O))
      (st2 : LoopState W O),
    epochLoop env pf tl vl es st = Except.ok (rs, st2) →
    rs.map (·.epoch) = es := by
  intro es
  induction es with
  | nil =>
    intro st rs st2 h
    simp only [epochLoop, Except.ok.injEq, Prod.mk.injEq] at h
    rw [← h.1]
    rfl
  | cons e es ih =>
    intro st rs st2 h
    simp only [epochLoop] at h
    split at h
    · cases h
    · rename_i r stm hb
      split at h
      · cases h
      · rename_i rs2 stf hr
        simp only [Except.ok.injEq, Prod.mk.injEq] at h
        obtain ⟨h1, h2⟩ := h
        subst h1
        simp only [List.map_cons]
        rw [(epochBody_ok hb).1, ih _ _ _ hr]

theorem epochLoop_state {env : Env W G O} {pf : ℕ} {tl vl : List Batch} :
    ∀ (es : List ℕ) (st : LoopState W O) (rs : List (EpochRecord W O))
      (st2 : LoopState W O),
    epochLoop env pf tl vl es st = Except.ok (rs, st2) →
    st2.best_loss = (rs.map (·.valid_loss)).foldl min st.best_loss ∧
    st2.fs.model_best =
      rs.foldl (fun a r => if r.is_best then some r.saved else a) st.fs.model_best ∧
    st2.fs.checkpoint = rs.foldl (fun _ r => some r.saved) st.fs.checkpoint := by
  intro es
  induction es with
  | nil =>
    intro st rs st2 h
    simp only [epochLoop, Except.ok.injEq, Prod.mk.injEq] at h
    obtain ⟨h1, h2⟩ := h
    subst h2
    rw [← h1]
    exact ⟨rfl, rfl, rfl⟩
  | cons e es ih =>
    intro st rs st2 h
    simp only [epochLoop] at h
    split at h
    · cases h
    · rename_i r stm hb
      split at h
      · cases h
      · rename_i rs2 stf hr
        simp only [Except.ok.injEq, Prod.mk.injEq] at h
        obtain ⟨h1, h2⟩ := h
        subst h1
        subst h2
        have hbo := epochBody_ok hb
        have hsave := save_checkpoint_fs r.saved r.is_best st.fs
        obtain ⟨ih1, ih2, ih3⟩ := ih _ _ _ hr
        refine ⟨?_, ?_, ?_⟩
        · rw [ih1, hbo.2.2.2.2.1, List.map_cons, List.foldl_cons, min_comm]
        · rw [ih2, List.foldl_cons, hbo.2.2.2.2.2.1, hsave.2]
        · rw [ih3, List.foldl_cons, hbo.2.2.2.2.2.1, hsave.1]

theorem epochLoop_is_best {env : Env W G O} {pf : ℕ} {tl vl : List Batch} :
    ∀ (es : List ℕ) (st : LoopState W O) (rs : List (EpochRecord W O))
      (st2 : LoopState W O),
    epochLoop env pf tl vl es st = Except.ok (rs, st2) →
    ∀ i, (hi : i < rs.length) →
      (rs.get ⟨i, hi⟩).is_best =
        decide ((rs.get ⟨i, hi⟩).valid_loss <
          ((rs.map (·.valid_loss)).take i).foldl min st.best_loss) := by
  intro es
  induction es with
  | nil =>
    intro st rs st2 h
    simp only [epochLoop, Except.ok.injEq, Prod.mk.injEq] at h
    obtain ⟨h1, h2⟩ := h
    subst h2
    rw [← h1]
    intro i hi
    exact absurd hi (by simp)
  | cons e es ih =>
    intro st rs st2 h
    simp only [epochLoop] at h
    split at h
    · cases h
    · rename_i r stm hb
      split at h
      · cases h
      · rename_i rs2 stf hr
        simp only [Except.ok.injEq, Prod.mk.injEq] at h
        obtain ⟨h1, h2⟩ := h
        subst h1
        have hbo := epochBody_ok hb
        intro i hi
        cases i with
        | zero =>
          simpa using hbo.2.2.1
        | succ i =>
          have hi2 : i < rs2.length := by simpa using hi
          have := ih _ _ _ hr i hi2
          simp only [List.get_cons_succ, List.map_cons, List.take_succ_cons,
            List.foldl_cons] at this ⊢
          rw [this, hbo.2.2.2.2.1, min_comm]

theorem epochLoop_sched {env : Env W G O} {pf : ℕ} {tl vl : List Batch} :
    ∀ (es : List ℕ) (st : LoopState W O) (rs : List (EpochRecord W O))
      (st2 : LoopState W O),
    epochLoop env pf tl vl es st = Except.ok (rs, st2) →
    (∀ i, (hi : i < rs.length) →
      (rs.get ⟨i, hi⟩).schedLastEpochDuringTrain = st.sched.last_epoch + i + 1 ∧
      (rs.get ⟨i, hi⟩).lrDuringTrain =
        st.sched.base_lr *
          st.sched.gamma ^ ((st.sched.last_epoch + i + 1) / st.sched.step_size)) ∧
    st2.sched.last_epoch = st.sched.last_epoch + rs.length ∧
    st2.sched.step_size = st.sched.step_size ∧
    st2.sched.gamma = st.sched.gamma ∧
    st2.sched.base_lr = st.sched.base_lr := by
  intro es
  induction es with
  | nil =>
    intro st rs st2 h
    simp only [epochLoop, Except.ok.injEq, Prod.mk.injEq] at h
    obtain ⟨h1, h2⟩ := h
    subst h2
    rw [← h1]
    exact ⟨fun i hi => absurd hi (by simp), by simp, rfl, rfl, rfl⟩
  | cons e es ih =>
    intro st rs st2 h
    simp only [epochLoop] at h
    split at h
    · cases h
    · rename_i r stm hb
      split at h
      · cases h
      · rename_i rs2 stf hr
        simp only [Except.ok.injEq, Prod.mk.injEq] at h
        obtain ⟨h1, h2⟩ := h
        subst h1
        subst h2
        have hbo := epochBody_ok hb
        have hsched : stm.sched = st.sched.step := hbo.2.2.2.2.2.2.2.2.2.2.1
        obtain ⟨ihg, ihl, ihs, ihγ, ihb⟩ := ih _ _ _ hr
        have hstep_last : stm.sched.last_epoch = st.sched.last_epoch + 1 := by
          rw [hsched]; rfl
        have hstep_ss : stm.sched.step_size = st.sched.step_size := by
          rw [hsched]; rfl
        have hstep_γ : stm.sched.gamma = st.sched.gamma := by
          rw [hsched]; rfl
        have hstep_b : stm.sched.base_lr = st.sched.base_lr := by
          rw [hsched]; rfl
        refine ⟨?_, ?_, ?_, ?_, ?_⟩
        · intro i hi
          cases i with
          | zero =>
            have c12 := hbo.2.2.2.2.2.2.2.2.2.2.2.1
            have c13 := hbo.2.2.2.2.2.2.2.2.2.2.2.2.1
            constructor
            · show r.schedLastEpochDuringTrain = _
              rw [c12]
              rfl
            · show r.lrDuringTrain = _
              rw [c13]
              rfl
          | succ i =>
            have hi2 : i < rs2.length := by simpa using hi
            obtain ⟨g1, g2⟩ := ihg i hi2
            have heq : st.sched.last_epoch + 1 + i + 1 =
                st.sched.last_epoch + (i + 1) + 1 := by omega
            refine ⟨?_, ?_⟩
            · simp only [List.get_cons_succ]
              rw [g1, hstep_last]
              omega
            · simp only [List.get_cons_succ]
              rw [g2, hstep_last, hstep_ss, hstep_γ, hstep_b, heq]
        · simp only [List.length_cons]
          rw [ihl, hstep_last]
          omega
        · rw [ihs, hstep_ss]
        · rw [ihγ, hstep_γ]
        · rw [ihb, hstep_b]

theorem epochLoop_mem {env : Env W G O} {pf : ℕ} {tl vl : List Batch} :
    ∀ (es : List ℕ) (st : LoopState W O) (rs : List (EpochRecord W O))
      (st2 : LoopState W O),
    epochLoop env pf tl vl es st = Except.ok (rs, st2) →
    ∀ r ∈ rs, r.fsAfter.checkpoint = some r.saved ∧ r.saved.epoch = r.epoch ∧
      r.saved.arch = "UNet" ∧ r.saved.best_loss = r.best_loss_after ∧
      countSchedSteps r.trainEvents = 1 ∧
      r.trainEvents.head? = some (Event.schedStep r.schedLastEpochDuringTrain) := by
  intro es
  induction es with
  | nil =>
    intro st rs st2 h
    simp only [epochLoop, Except.ok.injEq, Prod.mk.injEq] at h
    obtain ⟨h1, h2⟩ := h
    rw [← h1]
    intro r hr
    exact absurd hr (by simp)
  | cons e es ih =>
    intro st rs st2 h
    simp only [epochLoop] at h
    split at h
    · cases h
    · rename_i r0 stm hb
      split at h
      · cases h
      · rename_i rs2 stf hr
        simp only [Except.ok.injEq, Prod.mk.injEq] at h
        obtain ⟨h1, h2⟩ := h
        subst h1
        have hbo := epochBody_ok hb
        intro r hmem
        rcases List.mem_cons.mp hmem with hc | hc
        · subst hc
          have c1 := hbo.1
          have c4 := hbo.2.2.2.1
          have c6 := hbo.2.2.2.2.2.1
          have c7 := hbo.2.2.2.2.2.2.1
          have c8 := hbo.2.2.2.2.2.2.2.1
          have c9 := hbo.2.2.2.2.2.2.2.2.1
          have c10 := hbo.2.2.2.2.2.2.2.2.2.1
          have c14 := hbo.2.2.2.2.2.2.2.2.2.2.2.2.2.1
          have c15 := hbo.2.2.2.2.2.2.2.2.2.2.2.2.2.2
          refine ⟨?_, ?_, c9, ?_, c14, c15⟩
          · rw [c7, c6, (save_checkpoint_fs r.saved r.is_best st.fs).1]
          · rw [c8, c1]
          · rw [c10, c4]
        · exact ih _ _ _ hr r hc

theorem main_ok {env : Env W G O} {N : ℕ} {lr : ℚ} {pf : ℕ}
    {resume : ResumeArg W O} {w0 : W} {o0 : O} {tl vl : List Batch}
    {fs0 : FS W O} {out : RunResult W O}
    (h : main env N lr pf resume w0 o0 tl vl fs0 = Except.ok out) :
    ∃ stf : LoopState W O,
      epochLoop env pf tl vl
        (List.range' (mainSetup lr w0 o0 resume).start_epoch
          (N - (mainSetup lr w0 o0 resume).start_epoch))
        ⟨(mainSetup lr w0 o0 resume).model, (mainSetup lr w0 o0 resume).optimizer,
          (mainSetup lr w0 o0 resume).lr_scheduler,
          (mainSetup lr w0 o0 resume).best_loss, fs0⟩ =
        Except.ok (out.records, stf) ∧
      out.fs = stf.fs ∧ out.final_best_loss = stf.best_loss ∧
      out.final_sched = stf.sched ∧ out.final_model = stf.model ∧
      out.missingCkptLogged = (mainSetup lr w0 o0 resume).missingCkptLogged := by
  unfold main at h
  split at h
  · cases h
  · rename_i recs stf hE
    simp only [Except.ok.injEq] at h
    subst h
    exact ⟨stf, hE, rfl, rfl, rfl, rfl, rfl⟩

/-! ## Claim theorems -/

/-- Claim C3 (confirmed): in every training-pass batch, the forward output is
thresholded at 0.3 to a binary prediction, the loss handed to `backward`
is the criterion applied to this thresholded output (not to the raw
probability map), the trace starts with the gradient zeroing, and exactly
one `optimizer.zero_grad()` and one `optimizer.step()` are recorded per
batch, the step updating the weights once. -/
theorem C3_train_batch_threshold_loss {env : Env W G O} {li pf en : ℕ} {lr : ℚ}
    {st : TrainSt W O} {idx : ℕ} {b : Batch} {st2 : TrainSt W O}
    {evs : List Event}
    (h : trainBatch env li pf en lr st idx b = Except.ok (st2, evs)) :
    isBinary (thresholdGT (env.forward st.model.weights b.sat_img) (3/10)) ∧
    Event.criterionCall (thresholdGT (env.forward st.model.weights b.sat_img) (3/10))
      b.map_img
      (env.criterion (thresholdGT (env.forward st.model.weights b.sat_img) (3/10))
        b.map_img) ∈ evs ∧
    Event.backwardCall
      (env.criterion (thresholdGT (env.forward st.model.weights b.sat_img) (3/10))
        b.map_img) ∈ evs ∧
    evs.head? = some Event.zeroGrad ∧
    countZeroGrads evs = 1 ∧
    countOptSteps evs = 1 ∧
    st2.model.weights = (env.sgd_step lr st.model.weights st.opt
      (env.backward st.model.weights
        (thresholdGT (env.forward st.model.weights b.sat_img) (3/10)) b.map_img)).1 := by
  have hb := trainBatch_ok h
  exact ⟨thresholdGT_isBinary _ _, hb.2.2.2.2.2.1, hb.2.2.2.2.2.2.1, hb.2.2.2.2.1,
    hb.2.2.2.2.2.2.2.2.2.2.2.1, hb.2.2.2.2.2.2.2.2.2.2.1, hb.2.1⟩

/-- Claim C4 (confirmed): in both the training and the validation batch body,
the accuracy tracker is updated exactly once, with
`dice_coeff(inputs, labels)` — the raw input tensor against the label
tensor, not the prediction — and the loss tracker is updated exactly once
with the batch's scalar loss, both weighted by the batch size. -/
theorem C4_tracker_updates {env : Env W G O} {li pf en li2 pf2 en2 : ℕ} {lr : ℚ}
    {st : TrainSt W O} {idx : ℕ} {b : Batch} {st2 : TrainSt W O} {evs : List Event}
    {vst : ValidSt W} {vidx : ℕ} {vb : Batch} {vst2 : ValidSt W} {vevs : List Event}
    (h : trainBatch env li pf en lr st idx b = Except.ok (st2, evs))
    (hv : validationBatch env li2 pf2 en2 vst vidx vb = Except.ok (vst2, vevs)) :
    (countAccUpdates evs = 1 ∧ countLossUpdates evs = 1 ∧
     Event.diceCall b.sat_img b.map_img (env.dice_coeff b.sat_img b.map_img) ∈ evs ∧
     Event.accUpdate (env.dice_coeff b.sat_img b.map_img) b.bsize ∈ evs ∧
     st2.acc_t = st.acc_t.update (env.dice_coeff b.sat_img b.map_img) b.bsize ∧
     st2.loss_t = st.loss_t.update
       (env.criterion (thresholdGT (env.forward st.model.weights b.sat_img) (3/10))
         b.map_img) b.bsize) ∧
    (countAccUpdates vevs = 1 ∧ countLossUpdates vevs = 1 ∧
     Event.diceCall vb.sat_img vb.map_img (env.dice_coeff vb.sat_img vb.map_img) ∈ vevs ∧
     Event.accUpdate (env.dice_coeff vb.sat_img vb.map_img) vb.bsize ∈ vevs ∧
     vst2.acc_t = vst.acc_t.update (env.dice_coeff vb.sat_img vb.map_img) vb.bsize ∧
     vst2.loss_t = vst.loss_t.update
       (env.criterion (thresholdGT (env.forward vst.model.weights vb.sat_img) (3/10))
         vb.map_img) vb.bsize) := by
  have hb := trainBatch_ok h
  have hvb := validationBatch_ok hv
  exact ⟨⟨hb.2.2.2.2.2.2.2.2.2.2.2.2.2.1, hb.2.2.2.2.2.2.2.2.2.2.2.2.2.2.1,
      hb.2.2.2.2.2.2.2.1, hb.2.2.2.2.2.2.2.2.1, hb.2.2.1, hb.2.2.2.1⟩,
    ⟨hvb.2.2.2.2.2.2.2.2.2.1, hvb.2.2.2.2.2.2.2.2.2.2.1,
      hvb.2.2.2.1, hvb.2.2.2.2.1, hvb.2.1, hvb.2.2.1⟩⟩

/-- Claim C10 (amended): the logging cadence is the integer division of the
number of batches by `print_freq`; whenever `print_freq` exceeds the
number of batches and the loader is nonempty, the cadence is 0 and both
passes raise a division-by-zero error while processing the first batch
(batch index 0), so the passes are total only when
`print_freq <= number of batches` — the empty-loader case excepted. -/
theorem C10_print_freq_divzero_amended {env : Env W G O} {model : Model W}
    {opt : O} {sched : StepLR} {pf en : ℕ} {data : List Batch}
    (hne : data ≠ []) (hgt : data.length < pf) :
    floordiv data.length pf = some 0 ∧
    train env data model opt sched pf en =
      Except.error (PyError.zeroDivAtBatch 0) ∧
    validation env data model pf en =
      Except.error (PyError.zeroDivAtBatch 0) := by
  have hpf : pf ≠ 0 := by omega
  have hdiv : data.length / pf = 0 := Nat.div_eq_of_lt hgt
  have hfd : floordiv data.length pf = some 0 := by
    simp [floordiv, hpf, hdiv]
  obtain ⟨b, bs, rfl⟩ := List.exists_cons_of_ne_nil hne
  simp only [List.length_cons] at hfd
  have hb : trainBatch env 0 pf en sched.step.lr
      (⟨model, opt, MetricTracker.init, MetricTracker.init⟩ : TrainSt W O) 0 b =
      Except.error (PyError.zeroDivAtBatch 0) := by
    simp [trainBatch]
  have hvb : validationBatch env 0 pf en
      (⟨{ model with mode := Mode.eval }, MetricTracker.init,
        MetricTracker.init⟩ : ValidSt W) 0 b =
      Except.error (PyError.zeroDivAtBatch 0) := by
    simp [validationBatch]
  refine ⟨hfd, ?_, ?_⟩
  · simp [train, hfd, runBatches, hb]
  · simp [validation, hfd, runBatches, hvb]

/-- Claim C7 (confirmed): a resume path with no file behind it is non-fatal:
the missing-checkpoint message is logged and the run proceeds exactly as a
fresh run — start epoch 0, best loss 999, freshly initialized model (in
training mode) and optimizer, fresh scheduler. -/
theorem C7_missing_checkpoint_nonfatal (env : Env W G O) (N : ℕ) (lr : ℚ)
    (pf : ℕ) (w0 : W) (o0 : O) (tl vl : List Batch) (fs0 : FS W O) :
    mainSetup lr w0 o0 (ResumeArg.missingFile : ResumeArg W O) =
      ⟨0, 999, ⟨w0, Mode.train⟩, o0, StepLR.mk0 lr, true⟩ ∧
    main env N lr pf ResumeArg.missingFile w0 o0 tl vl fs0 =
      (main env N lr pf ResumeArg.noArg w0 o0 tl vl fs0).map
        (fun r => { r with missingCkptLogged := true }) := by
  refine ⟨rfl, ?_⟩
  simp only [main, mainSetup]
  cases hE : epochLoop env pf tl vl (List.range' 0 (N - 0))
      ⟨⟨w0, Mode.train⟩, o0, StepLR.mk0 lr, 999, fs0⟩ with
  | error e => simp [hE, Except.map]
  | ok p => obtain ⟨recs, stf⟩ := p; simp [hE, Except.map]

/-- Claim C2 (confirmed): when the resume path holds a checkpoint record, the
epoch counter, best loss, model weights and optimizer state are restored
exactly from the record, and the epoch loop runs
`range(start_epoch, num_epochs)` with `start_epoch = loaded_epoch`, so the
loaded epoch is itself re-run (no `+1`). -/
theorem C2_resume_restores_state {env : Env W G O} {N : ℕ} {lr : ℚ} {pf : ℕ}
    {ck : Ckpt W O} {w0 : W} {o0 : O} {tl vl : List Batch} {fs0 : FS W O}
    {out : RunResult W O}
    (h : main env N lr pf (ResumeArg.file ck) w0 o0 tl vl fs0 = Except.ok out)
    (hlt : ck.epoch < N) :
    mainSetup lr w0 o0 (ResumeArg.file ck) =
      ⟨ck.epoch, ck.best_loss, ⟨ck.state_dict, Mode.train⟩, ck.optimizer,
        StepLR.mk0 lr, false⟩ ∧
    out.records.map (·.epoch) = List.range' ck.epoch (N - ck.epoch) ∧
    out.records.head?.map (·.epoch) = some ck.epoch := by
  obtain ⟨stf, hE, -⟩ := main_ok h
  have heps := epochLoop_epochs _ _ _ _ hE
  have h2 : out.records.map (·.epoch) = List.range' ck.epoch (N - ck.epoch) := by
    simpa [mainSetup] using heps
  refine ⟨rfl, h2, ?_⟩
  have hk : N - ck.epoch = (N - ck.epoch - 1) + 1 := by omega
  have h3 := congrArg List.head? h2
  rw [List.head?_map, hk, List.range'_succ] at h3
  simpa using h3

theorem foldl_min_of_le : ∀ (ls : List ℚ) (c : ℚ), (∀ l ∈ ls, c ≤ l) →
    ls.foldl min c = c := by
  intro ls
  induction ls with
  | nil => intro c h; rfl
  | cons x xs ih =>
    intro c h
    have hx : c ≤ x := h x (List.mem_cons_self x xs)
    simp only [List.foldl_cons, min_eq_left hx]
    exact ih c (fun l hl => h l (List.mem_cons_of_mem x hl))

theorem foldl_best_of_none : ∀ (rs : List (EpochRecord W O)) (a : Option (Ckpt W O)),
    (∀ r ∈ rs, r.is_best = false) →
    rs.foldl (fun a r => if r.is_best then some r.saved else a) a = a := by
  intro rs
  induction rs with
  | nil => intro a h; rfl
  | cons r rs ih =>
    intro a h
    have hr : r.is_best = false := h r (List.mem_cons_self r rs)
    simp only [List.foldl_cons, hr, Bool.false_eq_true, if_false]
    exact ih a (fun x hx => h x (List.mem_cons_of_mem r hx))

/-- Claim C9 (confirmed): the best-loss comparison is seeded with the
sentinel 999, not infinity: on a fresh run a "best" copy is written only
when the epoch's validation loss is strictly below 999, so a run whose
validation losses are all at least 999 never marks any epoch best and
never produces a best artifact. -/
theorem C9_sentinel_999 {env : Env W G O} {N : ℕ} {lr : ℚ} {pf : ℕ} {w0 : W}
    {o0 : O} {tl vl : List Batch} {fs0 : FS W O} {out : RunResult W O}
    (h : main env N lr pf ResumeArg.noArg w0 o0 tl vl fs0 = Except.ok out)
    (hbest0 : fs0.model_best = none)
    (hge : ∀ r ∈ out.records, 999 ≤ r.valid_loss) :
    (∀ r ∈ out.records, r.is_best = false) ∧ out.fs.model_best = none := by
  obtain ⟨stf, hE, hfs, -⟩ := main_ok h
  have hflag : ∀ r ∈ out.records, r.is_best = false := by
    intro r hr
    obtain ⟨⟨i, hi⟩, hgi⟩ := List.mem_iff_get.mp hr
    have hbst := epochLoop_is_best _ _ _ _ hE i hi
    simp only [mainSetup] at hbst
    rw [hgi] at hbst
    have hfold : ((out.records.map (·.valid_loss)).take i).foldl min 999 = 999 := by
      apply foldl_min_of_le
      intro l hl
      obtain ⟨r2, hr2, rfl⟩ := List.mem_map.mp (List.mem_of_mem_take hl)
      exact hge r2 hr2
    have hlt : ¬ (r.valid_loss <
        ((out.records.map (·.valid_loss)).take i).foldl min 999) := by
      rw [hfold]
      exact not_lt.mpr (hge r hr)
    exact hbst.trans (decide_eq_false hlt)
  refine ⟨hflag, ?_⟩
  have hstate := (epochLoop_state _ _ _ _ hE).2.1
  rw [hfs, hstate, foldl_best_of_none _ _ hflag]
  exact hbest0

/-- Claim C5 (confirmed): the scheduler is stepped exactly once per epoch, as
the first action of the training pass; with step size 15 and factor 0.1
the learning rate the training pass runs under is the initial rate at
epoch 0 and `initial_rate * 0.1` at epoch 15. -/
theorem C5_lr_schedule {env : Env W G O} {N : ℕ} {lr : ℚ} {pf : ℕ} {w0 : W}
    {o0 : O} {tl vl : List Batch} {fs0 : FS W O} {out : RunResult W O}
    (h : main env N lr pf ResumeArg.noArg w0 o0 tl vl fs0 = Except.ok out)
    (hN : 16 ≤ N) :
    (∀ r ∈ out.records, countSchedSteps r.trainEvents = 1 ∧
      r.trainEvents.head? = some (Event.schedStep r.schedLastEpochDuringTrain)) ∧
    (out.records.map (·.lrDuringTrain)).head? = some lr ∧
    ((out.records.map (·.lrDuringTrain)).drop 15).head? = some (lr * (1/10)) := by
  obtain ⟨stf, hE, -⟩ := main_ok h
  have hmem := epochLoop_mem _ _ _ _ hE
  have hlen : out.records.length = N := by
    have := congrArg List.length (epochLoop_epochs _ _ _ _ hE)
    simpa [mainSetup] using this
  have hsched := (epochLoop_sched _ _ _ _ hE).1
  refine ⟨fun r hr => ⟨(hmem r hr).2.2.2.2.1, (hmem r hr).2.2.2.2.2⟩, ?_, ?_⟩
  · have h0 : 0 < out.records.length := by omega
    obtain ⟨-, g2⟩ := hsched 0 h0
    simp only [mainSetup, StepLR.mk0] at g2
    norm_num at g2
    simp only [List.head?_eq_getElem?, List.getElem?_map]
    rw [List.getElem?_eq_getElem h0]
    simpa using g2
  · have h15 : 15 < out.records.length := by omega
    obtain ⟨-, g2⟩ := hsched 15 h15
    simp only [mainSetup, StepLR.mk0] at g2
    norm_num at g2
    simp only [List.head?_eq_getElem?, List.getElem?_drop, List.getElem?_map,
      Nat.add_zero]
    rw [List.getElem?_eq_getElem h15]
    simpa using g2

/-- Claim C1 (amended): after every epoch the checkpoint record of that epoch
is persisted to the fixed latest location, and it is additionally copied
to the best location exactly when the epoch's validation loss is strictly
lower than the minimum of the sentinel 999 and all prior epochs'
validation losses (ties do not count); for the validation-loss sequence
`[0.5, 0.3, 0.4, 0.2]` the best artifact reflects the state captured at
the epoch with loss 0.2 (see the witness). -/
theorem C1_best_checkpoint_amended {env : Env W G O} {N : ℕ} {lr : ℚ} {pf : ℕ}
    {w0 : W} {o0 : O} {tl vl : List Batch} {fs0 : FS W O} {out : RunResult W O}
    (h : main env N lr pf ResumeArg.noArg w0 o0 tl vl fs0 = Except.ok out) :
    (∀ r ∈ out.records, r.fsAfter.checkpoint = some r.saved ∧
      r.saved.epoch = r.epoch) ∧
    (∀ i, (hi : i < out.records.length) →
      (out.records.get ⟨i, hi⟩).is_best =
        decide ((out.records.get ⟨i, hi⟩).valid_loss <
          ((out.records.map (·.valid_loss)).take i).foldl min 999)) ∧
    out.fs.model_best =
      out.records.foldl (fun a r => if r.is_best then some r.saved else a)
        fs0.model_best := by
  obtain ⟨stf, hE, hfs, -⟩ := main_ok h
  refine ⟨?_, ?_, ?_⟩
  · intro r hr
    exact ⟨(epochLoop_mem _ _ _ _ hE r hr).1, (epochLoop_mem _ _ _ _ hE r hr).2.1⟩
  · intro i hi
    have := epochLoop_is_best _ _ _ _ hE i hi
    simpa [mainSetup] using this
  · have hstate := (epochLoop_state _ _ _ _ hE).2.1
    rw [hfs, hstate]

/-- Claim C8 (amended): the checkpoint record persisted each epoch is exactly
`{epoch, arch 'UNet', model weights, best_loss, optimizer state}` — it
carries no lr-schedule state — and on resume the epoch counter, best loss,
model weights and optimizer state are restored from the record while the
scheduler is freshly constructed (`StepLR.mk0`), not restored. -/
theorem C8_checkpoint_contents_amended {env : Env W G O} {N : ℕ} {lr : ℚ}
    {pf : ℕ} {ck : Ckpt W O} {w0 : W} {o0 : O} {tl vl : List Batch}
    {fs0 : FS W O} {out : RunResult W O}
    (h : main env N lr pf (ResumeArg.file ck) w0 o0 tl vl fs0 = Except.ok out) :
    mainSetup lr w0 o0 (ResumeArg.file ck) =
      ⟨ck.epoch, ck.best_loss, ⟨ck.state_dict, Mode.train⟩, ck.optimizer,
        StepLR.mk0 lr, false⟩ ∧
    (mainSetup lr w0 o0 (ResumeArg.file ck)).lr_scheduler = StepLR.mk0 lr ∧
    (∀ r ∈ out.records, r.saved.arch = "UNet" ∧ r.saved.epoch = r.epoch ∧
      r.saved.best_loss = r.best_loss_after ∧
      r.fsAfter.checkpoint = some r.saved) := by
  obtain ⟨stf, hE, -⟩ := main_ok h
  refine ⟨rfl, rfl, ?_⟩
  intro r hr
  have hm := epochLoop_mem _ _ _ _ hE r hr
  exact ⟨hm.2.2.1, hm.2.1, hm.2.2.2.1, hm.1⟩

section ConcreteEvaluation

attribute [local semireducible] Rat.add Rat.mul Rat.inv Rat.sub

/-- Claim C1 counterexample: in a fresh one-epoch run whose only validation
loss is 999, the first epoch strictly improves on the empty set of prior
epochs, yet no best artifact is written (999 is not strictly below the 999
sentinel), so the best copy is not made exactly on strict improvement over
the prior epochs. -/
theorem C1_best_sentinel_counterexample :
    run999a.records.map (·.valid_loss) = [999] ∧
    run999a.fs.model_best = none ∧
    ¬ bestExactlyOnStrictImprovement run999a.records := by
  refine ⟨by decide, by decide, ?_⟩
  intro hsp
  have h0 : (run999a.records.get ⟨0, by decide⟩).is_best = true :=
    (hsp 0 (by decide)).mpr (fun j hj => absurd hj (Nat.not_lt_zero j))
  exact absurd h0 (by decide)

/-- Claim C6 (code-bug evidence): in a concrete two-epoch run the
validation pass records no optimizer step, no gradient zeroing and no
backward call, switches the model to eval mode at its start, and the saved
weights advance by exactly one optimizer step per epoch; but the model is
never switched back to training mode — the second training pass starts in
eval mode and the final model is still in eval mode. -/
theorem C6_validation_mode_code_bug :
    run2.records.map (·.modeAtTrainStart) = [Mode.train, Mode.eval] ∧
    run2.final_model.mode = Mode.eval ∧
    (∀ r ∈ run2.records, countOptSteps r.validEvents = 0 ∧
      countZeroGrads r.validEvents = 0 ∧ countBackwards r.validEvents = 0 ∧
      r.validEvents.head? = some Event.modelEval) ∧
    run2.records.map (·.saved.state_dict) = [1, 2] := by
  decide

/-- Claim C8 counterexample: the record saved by the two-epoch run `run2`
at its last epoch is exactly `⟨1, "UNet", 2, 3/10, 2⟩`, with no
lr-schedule field; the run resumed from it re-runs epoch 1 under scheduler
state 1, whereas the original run executed epoch 1 under scheduler state
2 — the lr-schedule state is not saved and not restored wholesale. -/
theorem C8_scheduler_not_saved_counterexample :
    run2.fs.checkpoint = some ckR ∧
    schedStateAt run2.records 1 = some 2 ∧
    schedStateAt runResumed.records 1 = some 1 ∧
    ¬ schedStateAt runResumed.records 1 = schedStateAt run2.records 1 := by
  decide

/-- Claim C10 counterexample: with an empty loader, `print_freq = 1`
exceeds the number of batches (0), yet both passes complete without
raising any error, so the passes are not total only under
`print_freq <= number of batches` as claimed. -/
theorem C10_empty_loader_counterexample :
    (train envC ([] : List Batch) ⟨0, Mode.train⟩ 0
      (StepLR.mk0 (1/100)) 1 0).isOk = true ∧
    (validation envC ([] : List Batch) ⟨0, Mode.train⟩ 1 0).isOk = true ∧
    ¬ (1 ≤ List.length ([] : List Batch)) := by
  exact ⟨rfl, rfl, by decide⟩

/-- Witness for claim C3 at one concrete training batch. -/
theorem C3_train_batch_threshold_loss_witness :
    isBinary (thresholdGT (envC.forward stC.model.weights bC.sat_img) (3/10)) ∧
    countZeroGrads tbC.2 = 1 ∧ countOptSteps tbC.2 = 1 ∧
    tbC.2.head? = some Event.zeroGrad := by
  have h : trainBatch envC 1 1 0 (1/100) stC 0 bC = Except.ok (tbC.1, tbC.2) := rfl
  have hx := C3_train_batch_threshold_loss h
  exact ⟨hx.1, hx.2.2.2.2.1, hx.2.2.2.2.2.1, hx.2.2.2.1⟩

/-- Witness for claim C4 at one concrete training and validation batch. -/
theorem C4_tracker_updates_witness :
    countAccUpdates tbC.2 = 1 ∧ countLossUpdates tbC.2 = 1 ∧
    countAccUpdates vbC.2 = 1 ∧ countLossUpdates vbC.2 = 1 ∧
    Event.diceCall bC.sat_img bC.map_img
      (envC.dice_coeff bC.sat_img bC.map_img) ∈ tbC.2 ∧
    Event.diceCall bC.sat_img bC.map_img
      (envC.dice_coeff bC.sat_img bC.map_img) ∈ vbC.2 := by
  have h : trainBatch envC 1 1 0 (1/100) stC 0 bC = Except.ok (tbC.1, tbC.2) := rfl
  have hv : validationBatch envC 1 1 0 vstC 0 bC = Except.ok (vbC.1, vbC.2) := rfl
  have hx := C4_tracker_updates h hv
  exact ⟨hx.1.1, hx.1.2.1, hx.2.1, hx.2.2.1, hx.1.2.2.1, hx.2.2.2.1⟩

/-- Witness for claim C10's amended theorem at a one-batch loader with
`print_freq = 2`. -/
theorem C10_print_freq_divzero_amended_witness :
    floordiv [bC].length 2 = some 0 ∧
    train envC [bC] ⟨0, Mode.train⟩ 0 (StepLR.mk0 (1/100)) 2 0 =
      Except.error (PyError.zeroDivAtBatch 0) ∧
    validation envC [bC] ⟨0, Mode.train⟩ 2 0 =
      Except.error (PyError.zeroDivAtBatch 0) :=
  C10_print_freq_divzero_amended (by decide) (by decide)

/-- Witness for claim C2 at the concrete resumed run. -/
theorem C2_resume_restores_state_witness :
    mainSetup (1/100) 0 0 (ResumeArg.file ckR) =
      ⟨ckR.epoch, ckR.best_loss, ⟨ckR.state_dict, Mode.train⟩, ckR.optimizer,
        StepLR.mk0 (1/100), false⟩ ∧
    runResumed.records.map (·.epoch) = List.range' ckR.epoch (2 - ckR.epoch) ∧
    runResumed.records.head?.map (·.epoch) = some ckR.epoch := by
  have h : main envC 2 (1/100) 1 (ResumeArg.file ckR) 0 0 [bC] [bC] fsEmpty =
      Except.ok runResumed := rfl
  exact C2_resume_restores_state h (by decide)

/-- Witness for claim C9 at the concrete all-999 run. -/
theorem C9_sentinel_999_witness :
    run999b.records.map (·.is_best) = [false, false] ∧
    run999b.fs.model_best = none := by
  have h : main env999 2 (1/100) 1 ResumeArg.noArg 0 0 [bC] [bC] fsEmpty =
      Except.ok run999b := rfl
  have hx := C9_sentinel_999 h rfl (by decide)
  exact ⟨by decide, hx.2⟩

/-- Witness for claim C5 at the concrete sixteen-epoch run. -/
theorem C5_lr_schedule_witness :
    (run16.records.map (·.lrDuringTrain)).head? = some (1/100) ∧
    ((run16.records.map (·.lrDuringTrain)).drop 15).head? =
      some ((1/100) * (1/10)) ∧
    run16.records.map (fun r => countSchedSteps r.trainEvents) =
      List.replicate 16 1 := by
  have h : main envC 16 (1/100) 1 ResumeArg.noArg 0 0 [bC] [bC] fsEmpty =
      Except.ok run16 := rfl
  have hx := C5_lr_schedule h (by decide)
  exact ⟨hx.2.1, hx.2.2, by decide⟩

/-- Witness for claim C1's amended theorem at the run with validation
losses `[0.5, 0.3, 0.4, 0.2]`: the best artifact is the record captured at
epoch 3, the epoch with loss 0.2. -/
theorem C1_best_checkpoint_amended_witness :
    runSeq.records.map (·.valid_loss) = [1/2, 3/10, 2/5, 1/5] ∧
    runSeq.records.map (·.is_best) = [true, true, false, true] ∧
    runSeq.fs.model_best =
      runSeq.records.foldl (fun a r => if r.is_best then some r.saved else a)
        fsEmpty.model_best ∧
    runSeq.fs.model_best = some ⟨3, "UNet", 4, 1/5, 4⟩ := by
  have h : main envC 4 (1/100) 1 ResumeArg.noArg 0 0 [bC] [bC] fsEmpty =
      Except.ok runSeq := rfl
  have hx := C1_best_checkpoint_amended h
  exact ⟨by decide, by decide, hx.2.2, by decide⟩

/-- Witness for claim C8's amended theorem at the concrete resumed run. -/
theorem C8_checkpoint_contents_amended_witness :
    mainSetup (1/100) 0 0 (ResumeArg.file ckR) =
      ⟨ckR.epoch, ckR.best_loss, ⟨ckR.state_dict, Mode.train⟩, ckR.optimizer,
        StepLR.mk0 (1/100), false⟩ ∧
    (mainSetup (1/100) 0 0 (ResumeArg.file ckR)).lr_scheduler =
      StepLR.mk0 (1/100) ∧
    runResumed.records.map (·.saved.arch) = ["UNet"] := by
  have h : main envC 2 (1/100) 1 (ResumeArg.file ckR) 0 0 [bC] [bC] fsEmpty =
      Except.ok runResumed := rfl
  have hx := C8_checkpoint_contents_amended h
  exact ⟨hx.1, hx.2.1, by decide⟩

end ConcreteEvaluation

end RoadExtraction
